import Mathlib

/-!
Verification of the gcov-server coverage service (src/main.rs, src/db.rs).

The Rust program is shallowly embedded:

* JSON numbers are modelled as exact rationals (`Rat`).  Every finite
  `f64` is a rational, and serde_json round-trips finite doubles exactly
  (shortest-representation printing); non-finite doubles have no JSON
  representation at all, so the rational model covers everything the wire
  format can carry.  `usize` counters are modelled as `Nat`.
* A JSON object is a list of key/value pairs in the order serde emits
  them; for the flat nine-key coverage objects handled here, equality of
  these lists coincides with jsonb equality, since the serializer is
  deterministic and always emits the same key set in the same order.
* The `summary` Postgres table is a state record: whether the table has
  been created, its column names (as created by `summary::setup_table`),
  and its rows.  SQL statements are embedded as functions on this state;
  a statement referencing a column that does not exist fails, as in
  Postgres.
* The `SELECT DISTINCT org, repo, coverage, MAX(inserttime) ... GROUP BY
  org, repo, coverage` query's result-set semantics is
  `fetch_latest_per_repo`: one output row per distinct
  (org, repo, coverage) triple carrying the group's maximal timestamp.
* The dashboard grouping loop of `root_handler` (a `HashMap` of
  org-name buckets, pushed in encounter order) is embedded as an
  association list with the same insert-or-push step.
* Process-exit behaviour: `std::process::exit(2)` is the exit code 2;
  a Rust panic (`expect`) terminates the process with Rust's panic exit
  status 101.
-/

/-- Represents a test coverage sub-metric (`Coverage` in both src files):
covered cases, total cases, and a caller-supplied percentage. -/
structure Coverage where
  covered : Nat
  total : Nat
  percent : Rat
deriving DecidableEq, Repr

/-- Represents a GCOV JSON coverage summary (`CoverageSummary` in both src
files): branch, function and line sub-metrics, serialized flattened with
the prefixes given by serde_with prefix_branch / prefix_function /
prefix_line. -/
structure CoverageSummary where
  branch : Coverage
  function : Coverage
  line : Coverage
deriving DecidableEq, Repr

/-- A JSON object as serde_json sees it here: keys paired with numeric
values, in emission order. -/
abbrev JsonObj : Type := List (String × Rat)

/-- Serialization of one `Coverage` under serde_with prefix `pre`:
the three fields in declaration order, keys prefixed. -/
def serializeCoverage (pre : String) (c : Coverage) : JsonObj :=
  [(pre ++ "covered", (c.covered : Rat)),
   (pre ++ "total", (c.total : Rat)),
   (pre ++ "percent", c.percent)]

/-- serde_json::to_value of a `CoverageSummary`: the three flattened,
prefixed sub-objects spliced into one flat object. -/
def toValueCoverageSummary (cs : CoverageSummary) : JsonObj :=
  serializeCoverage "branch_" cs.branch
    ++ serializeCoverage "function_" cs.function
    ++ serializeCoverage "line_" cs.line

/-- Key lookup in a JSON object (serde_json map get). -/
def objGet (o : JsonObj) (k : String) : Option Rat :=
  (List.find? (fun kv => kv.1 = k) o).map (fun kv => kv.2)

/-- serde deserialization of a JSON number into `usize`: accepted exactly
when the number is a non-negative integer. -/
def ratToUsize (q : Rat) : Option Nat :=
  if q.den = 1 ∧ 0 ≤ q.num then some q.num.toNat else none

/-- Deserialization of one prefixed `Coverage` group out of a flat object
(serde_with prefix + flatten): look up the three prefixed keys; all three
must be present, and covered/total must be usize numbers. -/
def deserializeCoverage (pre : String) (o : JsonObj) : Option Coverage :=
  match objGet o (pre ++ "covered"), objGet o (pre ++ "total"),
      objGet o (pre ++ "percent") with
  | some c, some t, some p =>
    match ratToUsize c, ratToUsize t with
    | some cv, some tv => some { covered := cv, total := tv, percent := p }
    | _, _ => none
  | _, _, _ => none

/-- serde deserialization of a `CoverageSummary` from a flat object:
the three prefixed groups must all deserialize. -/
def fromValueCoverageSummary (o : JsonObj) : Option CoverageSummary :=
  match deserializeCoverage "branch_" o, deserializeCoverage "function_" o,
      deserializeCoverage "line_" o with
  | some b, some f, some l => some { branch := b, function := f, line := l }
  | _, _, _ => none

/-- The nine flattened wire-format keys, in emission order. -/
def nineKeys : List String :=
  ["branch_covered", "branch_total", "branch_percent",
   "function_covered", "function_total", "function_percent",
   "line_covered", "line_total", "line_percent"]

/-- C3: serializing any CoverageSummary yields a flat object with exactly
the nine prefixed keys, and deserializing that output reproduces a
CoverageSummary with identical field values, including the
caller-supplied percent values. -/
theorem coverage_summary_round_trip (cs : CoverageSummary) :
    (toValueCoverageSummary cs).map Prod.fst = nineKeys
      ∧ fromValueCoverageSummary (toValueCoverageSummary cs) = some cs := by
  constructor
  · simp [toValueCoverageSummary, serializeCoverage, nineKeys]
  · simp [fromValueCoverageSummary, deserializeCoverage, objGet,
      toValueCoverageSummary, serializeCoverage, ratToUsize, List.find?]

/-- Represents a row in the summary db table (`SummaryTableEntry`):
insertion time, org, repo, and the coverage summary stored as jsonb. -/
structure SummaryTableEntry where
  insert_time : Nat
  org : String
  repo : String
  coverage : JsonObj
deriving DecidableEq, Repr

/-- The grouping key of the latest-per-repo query:
the (org, repo, coverage) triple. -/
def rowKey (r : SummaryTableEntry) : String × String × JsonObj :=
  (r.org, r.repo, r.coverage)

/-- The timestamps of the rows belonging to the (org, repo, coverage)
group of key `k`. -/
def groupTimes (rows : List SummaryTableEntry) (k : String × String × JsonObj) :
    List Nat :=
  (rows.filter (fun r => rowKey r = k)).map (fun r => r.insert_time)

/-- SQL MAX over the timestamps of a group (`0` on the empty list, which
never arises for a group produced by GROUP BY). -/
def maxTime (l : List Nat) : Nat := l.foldl max 0

/-- Result-set semantics of the query run by both `summary::fetch_table`
(db.rs) and `root_handler` (main.rs): SELECT DISTINCT org, repo,
coverage, MAX(inserttime) AS inserttime FROM summary GROUP BY org, repo,
coverage.  One output row per distinct (org, repo, coverage) triple,
stamped with the maximal insert time of its group (the DISTINCT is a
no-op after this GROUP BY). -/
def fetch_latest_per_repo (rows : List SummaryTableEntry) :
    List SummaryTableEntry :=
  ((rows.map rowKey).dedup).map
    (fun k => { insert_time := maxTime (groupTimes rows k),
                org := k.1, repo := k.2.1, coverage := k.2.2 })

theorem init_le_foldl_max (l : List Nat) (a : Nat) : a ≤ l.foldl max a := by
  induction l generalizing a with
  | nil => exact Nat.le_refl a
  | cons y ys ih => exact le_trans (Nat.le_max_left a y) (ih (max a y))

theorem le_foldl_max (l : List Nat) (a x : Nat) (hx : x ∈ l) :
    x ≤ l.foldl max a := by
  induction l generalizing a with
  | nil => cases hx
  | cons y ys ih =>
    rcases List.mem_cons.mp hx with h | h
    · subst h
      exact le_trans (Nat.le_max_right a x) (init_le_foldl_max ys (max a x))
    · rw [List.foldl_cons]
      exact ih (max a y) h

theorem foldl_max_eq_or_mem (l : List Nat) (a : Nat) :
    l.foldl max a = a ∨ l.foldl max a ∈ l := by
  induction l generalizing a with
  | nil => exact Or.inl rfl
  | cons y ys ih =>
    rcases ih (max a y) with h | h
    · rcases max_choice a y with hm | hm
      · exact Or.inl (by rw [List.foldl_cons, h, hm])
      · exact Or.inr (by rw [List.foldl_cons, h, hm]; exact List.mem_cons_self y ys)
    · exact Or.inr (List.mem_cons_of_mem y h)

theorem maxTime_mem (l : List Nat) (h : l ≠ []) : maxTime l ∈ l := by
  rcases foldl_max_eq_or_mem l 0 with h0 | hm
  · cases l with
    | nil => exact absurd rfl h
    | cons x xs =>
      have hx : x ≤ maxTime (x :: xs) :=
        le_foldl_max (x :: xs) 0 x (List.mem_cons_self x xs)
      have hx0 : x = 0 := Nat.le_zero.mp (by rw [maxTime, h0] at hx; exact hx)
      rw [maxTime, h0, ← hx0]
      exact List.mem_cons_self x xs
  · rw [maxTime]
    exact hm

theorem map_rowKey_fetch_latest (rows : List SummaryTableEntry) :
    (fetch_latest_per_repo rows).map rowKey = (rows.map rowKey).dedup := by
  rw [fetch_latest_per_repo, List.map_map]
  exact List.map_id ((rows.map rowKey).dedup)

/-- C2: the latest-per-repo query returns pairwise-distinct
(org, repo, coverage) triples; a triple appears in the output exactly
when it appears in the stored history; and every output row's timestamp
is the maximum insert time of its group (it is attained by some stored
row of the group and bounds every stored row of the group). -/
theorem fetch_latest_per_repo_groups (rows : List SummaryTableEntry) :
    ((fetch_latest_per_repo rows).map rowKey).Nodup
    ∧ (∀ k, k ∈ (fetch_latest_per_repo rows).map rowKey ↔ k ∈ rows.map rowKey)
    ∧ ∀ r ∈ fetch_latest_per_repo rows,
        (∃ r0 ∈ rows, rowKey r0 = rowKey r ∧ r0.insert_time = r.insert_time)
        ∧ ∀ r0 ∈ rows, rowKey r0 = rowKey r → r0.insert_time ≤ r.insert_time := by
  refine ⟨?_, ?_, ?_⟩
  · rw [map_rowKey_fetch_latest]
    exact List.nodup_dedup _
  · intro k
    rw [map_rowKey_fetch_latest]
    exact Iff.symm (List.mem_dedup).symm
  · intro r hr
    obtain ⟨k, hk, hrk⟩ := List.mem_map.mp hr
    have hkey : rowKey r = k := by
      rw [← hrk]
      rfl
    have hkmem : k ∈ rows.map rowKey := List.mem_dedup.mp hk
    obtain ⟨r0, hr0, hr0k⟩ := List.mem_map.mp hkmem
    have hne : groupTimes rows k ≠ [] := by
      have : r0.insert_time ∈ groupTimes rows k := by
        rw [groupTimes]
        exact List.mem_map.mpr
          ⟨r0, List.mem_filter.mpr ⟨hr0, by simp [hr0k]⟩, rfl⟩
      intro hnil
      rw [hnil] at this
      cases this
    have htime : r.insert_time = maxTime (groupTimes rows k) := by rw [← hrk]
    constructor
    · have hmax := maxTime_mem (groupTimes rows k) hne
      rw [groupTimes] at hmax
      obtain ⟨r1, hr1, hr1t⟩ := List.mem_map.mp hmax
      have hr1f := List.mem_filter.mp hr1
      refine ⟨r1, hr1f.1, ?_, ?_⟩
      · rw [hkey]
        exact of_decide_eq_true hr1f.2
      · rw [htime, hr1t]
        rfl
    · intro r0 hr0m hr0key
      have : r0.insert_time ∈ groupTimes rows k := by
        rw [groupTimes]
        exact List.mem_map.mpr
          ⟨r0, List.mem_filter.mpr ⟨hr0m, by simp [hr0key, hkey]⟩, rfl⟩
      rw [htime]
      exact le_foldl_max _ 0 _ this

/-- A concrete coverage summary used to instantiate theorems. -/
def sampleSummary : CoverageSummary :=
  { branch := { covered := 5, total := 10, percent := 50 },
    function := { covered := 3, total := 4, percent := 75 },
    line := { covered := 0, total := 0, percent := 0 } }

/-- A second concrete coverage summary with different content. -/
def sampleSummary2 : CoverageSummary :=
  { branch := { covered := 6, total := 10, percent := 60 },
    function := { covered := 3, total := 4, percent := 75 },
    line := { covered := 0, total := 0, percent := 0 } }

/-- C3 witness: the round trip evaluated at a concrete summary. -/
theorem coverage_summary_round_trip_witness :
    (toValueCoverageSummary sampleSummary).map Prod.fst = nineKeys
      ∧ fromValueCoverageSummary (toValueCoverageSummary sampleSummary)
        = some sampleSummary :=
  coverage_summary_round_trip sampleSummary

/-- The three-record history of the spec's grouping scenario: two rows
for (orgA, repoX) with identical coverage content, one for
(orgA, repoY) with different content. -/
def scenarioRows : List SummaryTableEntry :=
  [{ insert_time := 1, org := "orgA", repo := "repoX",
     coverage := toValueCoverageSummary sampleSummary },
   { insert_time := 2, org := "orgA", repo := "repoX",
     coverage := toValueCoverageSummary sampleSummary },
   { insert_time := 3, org := "orgA", repo := "repoY",
     coverage := toValueCoverageSummary sampleSummary2 }]

/-- C2 witness: on the spec's scenario the two identical (orgA, repoX)
rows collapse to one and exactly two rows come back, the collapsed one
stamped with the later insert time 2; the general grouping theorem is
instantiated on the same history. -/
theorem fetch_latest_per_repo_groups_witness :
    (fetch_latest_per_repo scenarioRows).length = 2
      ∧ { insert_time := 2, org := "orgA", repo := "repoX",
          coverage := toValueCoverageSummary sampleSummary }
          ∈ fetch_latest_per_repo scenarioRows
      ∧ (((fetch_latest_per_repo scenarioRows).map rowKey).Nodup
        ∧ (∀ k, k ∈ (fetch_latest_per_repo scenarioRows).map rowKey
            ↔ k ∈ scenarioRows.map rowKey)
        ∧ ∀ r ∈ fetch_latest_per_repo scenarioRows,
            (∃ r0 ∈ scenarioRows, rowKey r0 = rowKey r
              ∧ r0.insert_time = r.insert_time)
            ∧ ∀ r0 ∈ scenarioRows, rowKey r0 = rowKey r
              → r0.insert_time ≤ r.insert_time) :=
  ⟨by decide, by decide, fetch_latest_per_repo_groups scenarioRows⟩

/-- The error enum of db.rs (`DbError`): an sqlx database error or a
serde_json error, each carrying its message. -/
inductive DbError where
  | sqlx (msg : String)
  | json (msg : String)
deriving DecidableEq, Repr

/-- State of the summary Postgres table: whether it has been created,
the column names it was created with, and its rows. -/
structure SummaryDb where
  created : Bool
  columns : List String
  rows : List SummaryTableEntry
deriving DecidableEq, Repr

/-- A database in which the summary table has not been created. -/
def emptySummaryDb : SummaryDb := { created := false, columns := [], rows := [] }

namespace summary

/-- The columns `summary::setup_table` creates:
CREATE TABLE IF NOT EXISTS summary (insert_time timestamptz, org varchar,
repo varchar, coverage jsonb). -/
def tableColumns : List String := ["insert_time", "org", "repo", "coverage"]

/-- summary::setup_table — creates the summary table with its four
columns if it does not exist; IF NOT EXISTS makes the second call a
no-op rather than an error. -/
def setup_table (db : SummaryDb) : SummaryDb :=
  if db.created then db
  else { created := true, columns := tableColumns, rows := [] }

/-- summary::insert_into_table — serializes the coverage summary with
serde_json::to_value and runs INSERT INTO summary VALUES (now(), $1, $2,
$3); the positional insert appends one row stamped `now` and fails if
the relation does not exist. -/
def insert_into_table (db : SummaryDb) (now : Nat) (org repo : String)
    (coverage : CoverageSummary) : Except DbError SummaryDb :=
  if db.created then
    Except.ok { db with rows := db.rows
      ++ [{ insert_time := now, org := org, repo := repo,
            coverage := toValueCoverageSummary coverage }] }
  else Except.error (DbError.sqlx "relation summary does not exist")

/-- The column names the SELECT of `summary::fetch_table` references:
org, repo and coverage in the projection and grouping, and `inserttime`
inside MAX(inserttime). -/
def fetchColumns : List String := ["org", "repo", "coverage", "inserttime"]

/-- summary::fetch_table — runs SELECT DISTINCT org, repo, coverage,
MAX(inserttime) AS inserttime FROM summary GROUP BY org, repo, coverage.
Postgres resolves every referenced column against the table's columns
before evaluating; an unknown column makes the query fail, otherwise the
grouped result set of `fetch_latest_per_repo` comes back. -/
def fetch_table (db : SummaryDb) : Except DbError (List SummaryTableEntry) :=
  if fetchColumns.all (fun c => db.columns.contains c) then
    Except.ok (fetch_latest_per_repo db.rows)
  else Except.error (DbError.sqlx "column inserttime does not exist")

end summary

/-- C1 (code bug): on a summary table created by `summary::setup_table`
(whose timestamp column is named insert_time), a successful
`summary::insert_into_table` is followed by a `summary::fetch_table`
that fails, because the fetch query references the non-existent column
`inserttime`; the inserted record never comes back. -/
theorem insert_then_fetch_fails (now : Nat) (org repo : String)
    (cov : CoverageSummary) :
    ∃ db1, summary.insert_into_table (summary.setup_table emptySummaryDb)
        now org repo cov = Except.ok db1
      ∧ summary.fetch_table db1
        = Except.error (DbError.sqlx "column inserttime does not exist") := by
  refine ⟨_, rfl, ?_⟩
  rfl

/-- C1 witness: the failing insert-then-fetch evaluated on a concrete
record for (orgA, repoX). -/
theorem insert_then_fetch_fails_witness :
    ∃ db1, summary.insert_into_table (summary.setup_table emptySummaryDb)
        0 "orgA" "repoX" sampleSummary = Except.ok db1
      ∧ summary.fetch_table db1
        = Except.error (DbError.sqlx "column inserttime does not exist") :=
  insert_then_fetch_fails 0 "orgA" "repoX" sampleSummary

/-- One dashboard view (`GiteaOrg` in main.rs): an organisation name and
the summary rows grouped under it. -/
structure GiteaOrg where
  name : String
  repos : List SummaryTableEntry
deriving DecidableEq, Repr

/-- One step of the grouping loop in `root_handler`: if a bucket for the
entry's org exists, push the entry onto it, otherwise insert a fresh
singleton bucket for that org. -/
def addEntry (orgs : List (String × List SummaryTableEntry))
    (e : SummaryTableEntry) : List (String × List SummaryTableEntry) :=
  if (orgs.find? (fun p => p.1 = e.org)).isSome then
    orgs.map (fun p => if p.1 = e.org then (p.1, p.2 ++ [e]) else p)
  else orgs ++ [(e.org, [e])]

/-- The Aggregator of `root_handler`: fold the fetched rows into org
buckets (a HashMap in the source; its iteration order is not part of any
claim), then project each bucket to a `GiteaOrg` view. -/
def groupOrgs (entries : List SummaryTableEntry) : List GiteaOrg :=
  (entries.foldl addEntry []).map (fun p => { name := p.1, repos := p.2 })

/-- Invariant of the bucket map: org names are pairwise distinct, every
bucket is non-empty, and every entry sits in the bucket of its org. -/
def OrgsInv (orgs : List (String × List SummaryTableEntry)) : Prop :=
  (orgs.map Prod.fst).Nodup
  ∧ ∀ p ∈ orgs, p.2 ≠ [] ∧ ∀ e ∈ p.2, e.org = p.1

theorem map_fst_update (orgs : List (String × List SummaryTableEntry))
    (s : String) (e : SummaryTableEntry) :
    (orgs.map (fun p => if p.1 = s then (p.1, p.2 ++ [e]) else p)).map Prod.fst
      = orgs.map Prod.fst := by
  induction orgs with
  | nil => rfl
  | cons q rest ih =>
    simp only [List.map_cons, ih]
    split <;> rfl

theorem map_update_eq_self (orgs : List (String × List SummaryTableEntry))
    (s : String) (e : SummaryTableEntry) (h : s ∉ orgs.map Prod.fst) :
    orgs.map (fun p => if p.1 = s then (p.1, p.2 ++ [e]) else p) = orgs := by
  induction orgs with
  | nil => rfl
  | cons q rest ih =>
    rw [List.map_cons] at h ⊢
    have hq : ¬q.1 = s := fun hs => h (hs ▸ List.mem_cons_self q.1 _)
    rw [if_neg hq, ih (fun hs => h (List.mem_cons_of_mem q.1 hs))]



theorem flatten_update_perm (orgs : List (String × List SummaryTableEntry))
    (e : SummaryTableEntry) (hnd : (orgs.map Prod.fst).Nodup)
    (hmem : e.org ∈ orgs.map Prod.fst) :
    (List.flatten ((orgs.map
        (fun p => if p.1 = e.org then (p.1, p.2 ++ [e]) else p)).map
          Prod.snd)).Perm
      (List.flatten (orgs.map Prod.snd) ++ [e]) := by
  induction orgs with
  | nil => cases hmem
  | cons q rest ih =>
    rw [List.map_cons] at hnd hmem
    rw [List.map_cons, List.map_cons, List.map_cons, List.flatten_cons,
      List.flatten_cons]
    by_cases hq : q.1 = e.org
    · have hrest : e.org ∉ rest.map Prod.fst := fun hr =>
        (List.nodup_cons.mp hnd).1 (hq ▸ hr)
      rw [if_pos hq, map_update_eq_self rest e.org e hrest]
      show ((q.2 ++ [e]) ++ List.flatten (rest.map Prod.snd)).Perm
        ((q.2 ++ List.flatten (rest.map Prod.snd)) ++ [e])
      rw [List.append_assoc q.2 [e], List.append_assoc q.2]
      exact List.Perm.append_left q.2 List.perm_append_comm
    · have hmem2 : e.org ∈ rest.map Prod.fst := by
        rcases List.mem_cons.mp hmem with h | h
        · exact absurd h.symm hq
        · exact h
      rw [if_neg hq, List.append_assoc q.2]
      exact List.Perm.append_left q.2
        (ih (List.nodup_cons.mp hnd).2 hmem2)

theorem addEntry_inv (orgs : List (String × List SummaryTableEntry))
    (e : SummaryTableEntry) (h : OrgsInv orgs) : OrgsInv (addEntry orgs e) := by
  rw [addEntry]
  by_cases hf : (orgs.find? (fun p => p.1 = e.org)).isSome
  · rw [if_pos hf]
    refine ⟨by rw [map_fst_update]; exact h.1, ?_⟩
    intro p hp
    obtain ⟨q, hq, hqp⟩ := List.mem_map.mp hp
    by_cases hqe : q.1 = e.org
    · rw [if_pos hqe] at hqp
      subst hqp
      refine ⟨by simp, ?_⟩
      intro x hx
      rcases List.mem_append.mp hx with h1 | h1
      · exact (h.2 q hq).2 x h1
      · rw [List.mem_singleton.mp h1, hqe]
    · rw [if_neg hqe] at hqp
      subst hqp
      exact h.2 q hq
  · rw [if_neg hf]
    have hno : e.org ∉ orgs.map Prod.fst := by
      intro hmem
      obtain ⟨q, hq, hqe⟩ := List.mem_map.mp hmem
      exact hf (List.find?_isSome.mpr ⟨q, hq, by simp [hqe]⟩)
    refine ⟨?_, ?_⟩
    · rw [List.map_append]
      refine List.Nodup.append h.1 (List.nodup_singleton _) ?_
      intro a ha hb
      have : a = e.org := by simpa using hb
      exact hno (this ▸ ha)
    · intro p hp
      rcases List.mem_append.mp hp with h1 | h1
      · exact h.2 p h1
      · rw [List.mem_singleton.mp h1]
        exact ⟨by simp, by simp⟩

theorem addEntry_flatten (orgs : List (String × List SummaryTableEntry))
    (e : SummaryTableEntry) (h : OrgsInv orgs) :
    (List.flatten ((addEntry orgs e).map Prod.snd)).Perm
      (List.flatten (orgs.map Prod.snd) ++ [e]) := by
  rw [addEntry]
  by_cases hf : (orgs.find? (fun p => p.1 = e.org)).isSome
  · rw [if_pos hf]
    obtain ⟨q, hq, hqe⟩ := List.find?_isSome.mp hf
    exact flatten_update_perm orgs e h.1
      (List.mem_map.mpr ⟨q, hq, of_decide_eq_true hqe⟩)
  · rw [if_neg hf]
    rw [List.map_append, List.flatten_append]
    simp

theorem foldl_addEntry (entries : List SummaryTableEntry) :
    ∀ orgs, OrgsInv orgs →
      OrgsInv (entries.foldl addEntry orgs)
      ∧ (List.flatten ((entries.foldl addEntry orgs).map Prod.snd)).Perm
          (List.flatten (orgs.map Prod.snd) ++ entries) := by
  induction entries with
  | nil =>
    intro orgs h
    exact ⟨h, by simp⟩
  | cons e es ih =>
    intro orgs h
    have h1 := addEntry_inv orgs e h
    have h2 := addEntry_flatten orgs e h
    obtain ⟨ha, hb⟩ := ih (addEntry orgs e) h1
    rw [List.foldl_cons]
    refine ⟨ha, hb.trans ((h2.append_right es).trans ?_)⟩
    rw [List.append_assoc]
    exact List.Perm.refl _

/-- C4: the Aggregator drops and duplicates nothing — the rows across
all produced views are a permutation of the input, the view sizes add up
to the input length, and every row sits in the view named by its org. -/
theorem aggregation_complete (entries : List SummaryTableEntry) :
    (List.flatten ((groupOrgs entries).map (fun o => o.repos))).Perm entries
    ∧ ((groupOrgs entries).map (fun o => o.repos.length)).sum = entries.length
    ∧ ∀ o ∈ groupOrgs entries, ∀ x ∈ o.repos, x.org = o.name := by
  have h0 : OrgsInv ([] : List (String × List SummaryTableEntry)) :=
    ⟨List.nodup_nil, fun p hp => absurd hp (List.not_mem_nil p)⟩
  obtain ⟨hinv, hperm⟩ := foldl_addEntry entries [] h0
  have hmap : (groupOrgs entries).map (fun o => o.repos)
      = (entries.foldl addEntry []).map Prod.snd := by
    rw [groupOrgs, List.map_map]
    rfl
  have hP : (List.flatten ((groupOrgs entries).map (fun o => o.repos))).Perm
      entries := by
    rw [hmap]
    simpa using hperm
  refine ⟨hP, ?_, ?_⟩
  · have hlen := hP.length_eq
    rw [List.length_flatten, List.map_map] at hlen
    exact hlen
  · intro o ho x hx
    rw [groupOrgs] at ho
    obtain ⟨p, hp, hpo⟩ := List.mem_map.mp ho
    subst hpo
    exact (hinv.2 p hp).2 x hx

/-- C4 witness: the aggregation invariants instantiated on a concrete
three-row input, together with the evaluated views. -/
theorem aggregation_complete_witness :
    (groupOrgs scenarioRows).map (fun o => o.name) = ["orgA"]
    ∧ ((List.flatten ((groupOrgs scenarioRows).map (fun o => o.repos))).Perm
        scenarioRows
      ∧ ((groupOrgs scenarioRows).map (fun o => o.repos.length)).sum
          = scenarioRows.length
      ∧ ∀ o ∈ groupOrgs scenarioRows, ∀ x ∈ o.repos, x.org = o.name) :=
  ⟨by decide, aggregation_complete scenarioRows⟩

/-- A concrete input with two organisations for instantiating the
aggregator invariants. -/
def mixedRows : List SummaryTableEntry :=
  [{ insert_time := 1, org := "orgA", repo := "r1", coverage := [] },
   { insert_time := 2, org := "orgB", repo := "r2", coverage := [] },
   { insert_time := 3, org := "orgA", repo := "r3", coverage := [] }]

/-- C9: every view produced by the grouping step has a non-empty repos
list, and the view names are pairwise distinct. -/
theorem groupOrgs_views (entries : List SummaryTableEntry) :
    ((groupOrgs entries).map (fun o => o.name)).Nodup
    ∧ ∀ o ∈ groupOrgs entries, o.repos ≠ [] := by
  obtain ⟨hinv, _⟩ := foldl_addEntry entries []
    ⟨List.nodup_nil, fun p hp => absurd hp (List.not_mem_nil p)⟩
  constructor
  · rw [groupOrgs, List.map_map]
    exact hinv.1
  · intro o ho
    obtain ⟨p, hp, hpo⟩ := List.mem_map.mp ho
    subst hpo
    exact (hinv.2 p hp).1

/-- C9 witness: the view invariant instantiated on a two-organisation
input, together with the evaluated view names. -/
theorem groupOrgs_views_witness :
    (groupOrgs mixedRows).map (fun o => o.name) = ["orgA", "orgB"]
    ∧ (((groupOrgs mixedRows).map (fun o => o.name)).Nodup
      ∧ ∀ o ∈ groupOrgs mixedRows, o.repos ≠ []) :=
  ⟨by decide, groupOrgs_views mixedRows⟩

/-- The request-scoped error wrapper of main.rs (`AppError`), carrying
the display text of the wrapped anyhow error. -/
structure AppError where
  detail : String
deriving DecidableEq, Repr

/-- AppError::into_response — every request-scoped error becomes an HTTP
500 whose plaintext body prepends the fixed prefix to the error text. -/
def into_response (e : AppError) : Nat × String :=
  (500, "Something went wrong: " ++ e.detail)

/-- The sqlx query result consulted by the handler (`rows_affected`). -/
structure PgQueryResult where
  rows_affected : Nat
deriving DecidableEq, Repr

/-- Execution of INSERT INTO summary VALUES (now(), $1, $2, $3) through
the pool: a connectivity failure surfaces the sqlx error; otherwise
Postgres appends exactly the one supplied tuple and reports one affected
row. -/
def pgExecInsert (connFailure : Option String)
    (rows : List SummaryTableEntry) (now : Nat) (org repo : String)
    (cov : JsonObj) : Except String (List SummaryTableEntry × PgQueryResult) :=
  match connFailure with
  | some msg => Except.error msg
  | none =>
    Except.ok
      (rows ++ [{ insert_time := now, org := org, repo := repo, coverage := cov }],
        { rows_affected := 1 })

/-- The acknowledgement decision closing `summary_handler`: a query error
is converted into an AppError by the question-mark operator; a completed
query is acknowledged only when exactly one row was affected, any other
count yields the anyhow error "Unable to insert to DB". -/
def handler_ack (res : Except String PgQueryResult) : Except AppError Unit :=
  match res with
  | Except.error msg => Except.error { detail := msg }
  | Except.ok resp =>
    if resp.rows_affected = 1 then Except.ok ()
    else Except.error { detail := "Unable to insert to DB" }

/-- summary_handler — serializes the payload (total on the modelled
values), executes the INSERT and acknowledges through `handler_ack`. -/
def summary_handler (connFailure : Option String)
    (rows : List SummaryTableEntry) (now : Nat) (org repo : String)
    (payload : CoverageSummary) : Except AppError Unit :=
  handler_ack ((pgExecInsert connFailure rows now org repo
    (toValueCoverageSummary payload)).map Prod.snd)

/-- Axum's conversion of the handler result to the HTTP response:
Ok yields an empty 200, Err goes through into_response. -/
def respond (r : Except AppError Unit) : Nat × String :=
  match r with
  | Except.ok _ => (200, "")
  | Except.error e => into_response e

/-- C6: the ingestion handler answers an empty 200 exactly when the
insert succeeds; a failed insert answers 500 with the plaintext body
prefixed "Something went wrong: "; and every AppError whatsoever is
converted to such a 500 at the request boundary. -/
theorem summary_handler_response (connFailure : Option String)
    (rows : List SummaryTableEntry) (now : Nat) (org repo : String)
    (payload : CoverageSummary) :
    (respond (summary_handler connFailure rows now org repo payload)
        = (200, "") ↔ connFailure = none)
    ∧ (∀ msg, connFailure = some msg →
        respond (summary_handler connFailure rows now org repo payload)
          = (500, "Something went wrong: " ++ msg))
    ∧ ∀ e : AppError,
        into_response e = (500, "Something went wrong: " ++ e.detail) := by
  cases connFailure <;>
    simp [respond, summary_handler, handler_ack, pgExecInsert, into_response,
      Except.map]

/-- C6 witness: the two response shapes evaluated concretely — a
successful insert answers an empty 200, a connection failure answers the
500 with its message in the fixed plaintext body. -/
theorem summary_handler_response_witness :
    respond (summary_handler none [] 0 "orgA" "repoX" sampleSummary)
      = (200, "")
    ∧ respond (summary_handler (some "connection reset") [] 0 "orgA" "repoX"
        sampleSummary)
      = (500, "Something went wrong: connection reset") :=
  ⟨(summary_handler_response none [] 0 "orgA" "repoX" sampleSummary).1.mpr rfl,
   (summary_handler_response (some "connection reset") [] 0 "orgA" "repoX"
     sampleSummary).2.1 "connection reset" rfl⟩

/-- C10: the handler acknowledges success exactly when the insert
completed with exactly one affected row; a completed insert reporting
any other count is answered with the error "Unable to insert to DB". -/
theorem handler_ack_single_row (res : Except String PgQueryResult) :
    (handler_ack res = Except.ok ()
      ↔ ∃ resp, res = Except.ok resp ∧ resp.rows_affected = 1)
    ∧ ∀ resp, res = Except.ok resp → resp.rows_affected ≠ 1 →
        handler_ack res = Except.error { detail := "Unable to insert to DB" } := by
  cases res with
  | error msg => simp [handler_ack]
  | ok resp =>
    by_cases h : resp.rows_affected = 1 <;> simp [handler_ack, h]

/-- C10 witness: one affected row is acknowledged, zero affected rows
yields the "Unable to insert to DB" error. -/
theorem handler_ack_single_row_witness :
    handler_ack (Except.ok { rows_affected := 1 }) = Except.ok ()
    ∧ handler_ack (Except.ok { rows_affected := 0 })
        = Except.error { detail := "Unable to insert to DB" } :=
  ⟨(handler_ack_single_row (Except.ok { rows_affected := 1 })).1.mpr
      ⟨{ rows_affected := 1 }, rfl, rfl⟩,
   (handler_ack_single_row (Except.ok { rows_affected := 0 })).2
      { rows_affected := 0 } rfl (by decide)⟩

/-- Represents a row in the reports db table (`ReportTableEntry`). -/
structure ReportTableEntry where
  insert_time : Nat
  org : String
  repo : String
  branch : String
  commit : String
deriving DecidableEq, Repr


/-- The ORDER BY key of the reports fetch: (org, repo, insert_time),
compared lexicographically; the varchar columns compare by their
character sequences (byte order, as under Postgres C collation). -/
def reportKey (r : ReportTableEntry) : Lex (List Char × Lex (List Char × Nat)) :=
  toLex (r.org.data, toLex (r.repo.data, r.insert_time))

/-- Row comparison used by ORDER BY org, repo, insert_time (ascending,
the SQL default). -/
def reportLe (a b : ReportTableEntry) : Prop := reportKey a ≤ reportKey b

instance : DecidableRel reportLe := fun a b =>
  inferInstanceAs (Decidable (reportKey a ≤ reportKey b))

instance : IsTotal ReportTableEntry reportLe :=
  ⟨fun a b => le_total (reportKey a) (reportKey b)⟩

instance : IsTrans ReportTableEntry reportLe :=
  ⟨fun _ _ _ hab hbc => le_trans hab hbc⟩

namespace reports

/-- reports::fetch_table — SELECT insert_time, org, repo, branch, commit
FROM reports ORDER BY org, repo, insert_time: the whole table, as a
permutation sorted ascending by the key. -/
def fetch_table (rows : List ReportTableEntry) : List ReportTableEntry :=
  List.insertionSort reportLe rows

end reports

/-- C8: the reports fetch returns every stored row — the result is a
permutation of the table, with nothing truncated — sorted ascending by
(org, repo, insert_time); the comparison is spelled out as the plain
lexicographic order on those three fields. -/
theorem report_fetch_all_ordered (rows : List ReportTableEntry) :
    (reports.fetch_table rows).Perm rows
    ∧ List.Sorted reportLe (reports.fetch_table rows)
    ∧ ∀ a b : ReportTableEntry, reportLe a b ↔
        (a.org.data < b.org.data ∨ (a.org = b.org ∧ (a.repo.data < b.repo.data
          ∨ (a.repo = b.repo ∧ a.insert_time ≤ b.insert_time)))) := by
  refine ⟨List.perm_insertionSort reportLe rows,
    List.sorted_insertionSort reportLe rows, ?_⟩
  intro a b
  simp [reportLe, reportKey, Prod.Lex.le_iff, String.ext_iff]

/-- Concrete report rows, deliberately out of order. -/
def sampleReports : List ReportTableEntry :=
  [{ insert_time := 9, org := "orgB", repo := "repoA", branch := "main",
     commit := "c3" },
   { insert_time := 2, org := "orgA", repo := "repoZ", branch := "main",
     commit := "c2" },
   { insert_time := 1, org := "orgA", repo := "repoA", branch := "dev",
     commit := "c1" },
   { insert_time := 5, org := "orgA", repo := "repoA", branch := "main",
     commit := "c4" }]

/-- C8 witness: the ordering theorem instantiated on concrete rows,
together with the evaluated, fully sorted result. -/
theorem report_fetch_all_ordered_witness :
    (reports.fetch_table sampleReports).map (fun r => r.commit)
      = ["c1", "c4", "c2", "c3"]
    ∧ ((reports.fetch_table sampleReports).Perm sampleReports
      ∧ List.Sorted reportLe (reports.fetch_table sampleReports)
      ∧ ∀ a b : ReportTableEntry, reportLe a b ↔
          (a.org.data < b.org.data ∨ (a.org = b.org
            ∧ (a.repo.data < b.repo.data
              ∨ (a.repo = b.repo ∧ a.insert_time ≤ b.insert_time))))) :=
  ⟨by decide, report_fetch_all_ordered sampleReports⟩

/-- The effectful startup steps a gcov-server process can take. -/
inductive StartupAction where
  | initLogging
  | connectDb
  | setupSummaryTable
  | setupReportsTable
  | bindListener
  | serve
deriving DecidableEq, Repr

/-- The steps main() performs, in source order: logging setup,
PgPool::connect via construct_db_connection_string, TcpListener::bind,
axum::serve.  main() contains no call into db.rs and no table-creation
statement. -/
def mainStartupActions : List StartupAction :=
  [StartupAction.initLogging, StartupAction.connectDb,
   StartupAction.bindListener, StartupAction.serve]

/-- The steps of db.rs connect_and_setup: connect, then
summary::setup_table, then reports::setup_table. -/
def connect_and_setup_actions : List StartupAction :=
  [StartupAction.connectDb, StartupAction.setupSummaryTable,
   StartupAction.setupReportsTable]

/-- Schema state of the backing store: the names of existing tables. -/
structure Schema where
  tables : List String
deriving DecidableEq, Repr

/-- CREATE TABLE name / CREATE TABLE IF NOT EXISTS name: creating an
existing table is an error unless IF NOT EXISTS is given, in which case
it is a no-op; otherwise the table is added. -/
def createTable (s : Schema) (name : String) (ifNotExists : Bool) :
    Except String Schema :=
  if name ∈ s.tables then
    if ifNotExists then Except.ok s
    else Except.error ("relation " ++ name ++ " already exists")
  else Except.ok { tables := s.tables ++ [name] }

/-- The table creation performed by db.rs connect_and_setup:
summary::setup_table then reports::setup_table, both with
CREATE TABLE IF NOT EXISTS. -/
def connect_and_setup (s : Schema) : Except String Schema :=
  match createTable s "summary" true with
  | Except.error e => Except.error e
  | Except.ok s1 => createTable s1 "reports" true

theorem createTable_ine (s : Schema) (name : String) :
    ∃ s1, createTable s name true = Except.ok s1
      ∧ name ∈ s1.tables
      ∧ (∀ x ∈ s.tables, x ∈ s1.tables)
      ∧ (s.tables.Nodup → s1.tables.Nodup) := by
  by_cases h : name ∈ s.tables
  · exact ⟨s, by simp [createTable, h], h, fun x hx => hx, fun hn => hn⟩
  · refine ⟨{ tables := s.tables ++ [name] }, by simp [createTable, h],
      by simp, fun x hx => by simp [hx], ?_⟩
    intro hn
    refine List.Nodup.append hn (List.nodup_singleton _) ?_
    intro a ha hb
    exact h ((List.mem_singleton.mp hb) ▸ ha)

theorem createTable_mem_self (s : Schema) (name : String)
    (h : name ∈ s.tables) : createTable s name true = Except.ok s := by
  simp [createTable, h]

/-- C5 (amended): table creation for both stores is create-if-absent —
running the db.rs setup twice in sequence succeeds and the second run
changes nothing, duplicating no schema object — but this setup is NOT
part of the binary's startup: main() performs neither table-setup step
before serving requests. -/
theorem setup_idempotent_not_run_at_startup (s : Schema) :
    (∃ s1, connect_and_setup s = Except.ok s1
      ∧ connect_and_setup s1 = Except.ok s1
      ∧ "summary" ∈ s1.tables ∧ "reports" ∈ s1.tables
      ∧ (s.tables.Nodup → s1.tables.Nodup))
    ∧ StartupAction.setupSummaryTable ∉ mainStartupActions
    ∧ StartupAction.setupReportsTable ∉ mainStartupActions := by
  obtain ⟨t1, ht1, hmem1, hsub1, hnd1⟩ := createTable_ine s "summary"
  obtain ⟨t2, ht2, hmem2, hsub2, hnd2⟩ := createTable_ine t1 "reports"
  refine ⟨⟨t2, ?_, ?_, hsub2 _ hmem1, hmem2, fun hn => hnd2 (hnd1 hn)⟩,
    by decide, by decide⟩
  · rw [connect_and_setup, ht1]
    exact ht2
  · rw [connect_and_setup,
      createTable_mem_self t2 "summary" (hsub2 _ hmem1)]
    exact createTable_mem_self t2 "reports" hmem2

/-- C5 witness: starting from an empty schema, the evaluated setup
creates exactly the two tables and a second run returns the same schema;
the general theorem is instantiated on the empty schema. -/
theorem setup_idempotent_not_run_at_startup_witness :
    connect_and_setup { tables := [] }
      = Except.ok { tables := ["summary", "reports"] }
    ∧ ((∃ s1, connect_and_setup { tables := [] } = Except.ok s1
        ∧ connect_and_setup s1 = Except.ok s1
        ∧ "summary" ∈ s1.tables ∧ "reports" ∈ s1.tables
        ∧ (List.Nodup ([] : List String) → s1.tables.Nodup))
      ∧ StartupAction.setupSummaryTable ∉ mainStartupActions
      ∧ StartupAction.setupReportsTable ∉ mainStartupActions) :=
  ⟨by rfl, setup_idempotent_not_run_at_startup { tables := [] }⟩

/-- C5 counterexample: the claimed "this setup runs once at process
startup before requests are served" is false of main() — neither store's
table setup occurs among main()'s startup steps. -/
theorem setup_runs_at_startup_false :
    ¬(StartupAction.setupSummaryTable ∈ mainStartupActions
      ∧ StartupAction.setupReportsTable ∈ mainStartupActions) := by
  decide

/-- The exit status of a Rust process terminated by an uncaught panic,
as produced by expect / unwrap. -/
def panicExitCode : Nat := 101

/-- db.rs fetch_env_var_exiting — returns the variable's value, or
terminates the process with std::process::exit(2) when it is absent.
(The only caller is db.rs's CONNECTION_URL lazy static, which the
binary's main() never touches.) -/
def fetch_env_var_exiting (env : String → Option String) (key : String) :
    Except Nat String :=
  match env key with
  | some v => Except.ok v
  | none => Except.error 2

/-- main.rs construct_db_connection_string — reads POSTGRES_PASSWORD and
POSTGRES_DB with expect, so a missing variable panics, terminating the
process with the panic exit status; otherwise the connection string is
assembled. -/
def construct_db_connection_string (env : String → Option String) :
    Except Nat String :=
  match env "POSTGRES_PASSWORD" with
  | none => Except.error panicExitCode
  | some pw =>
    match env "POSTGRES_DB" with
    | none => Except.error panicExitCode
    | some dbName =>
      Except.ok ("postgres://postgres:" ++ pw ++ "@db/" ++ dbName)

/-- The termination behaviour of main()'s startup: a failure inside
construct_db_connection_string carries its exit code; an unreachable
database makes the expect on PgPool::connect panic; otherwise startup
proceeds (no exit code). -/
def mainStartupExitCode (env : String → Option String) (dbReachable : Bool) :
    Option Nat :=
  match construct_db_connection_string env with
  | Except.error c => some c
  | Except.ok _ => if dbReachable then none else some panicExitCode

/-- C7 counterexample: with POSTGRES_PASSWORD (and every variable)
absent, main() terminates with the panic exit status 101, not with exit
code 2; with the variables present but the database unreachable it again
terminates with 101, not with exit code 3. -/
theorem exit_codes_counterexample :
    mainStartupExitCode (fun _ => none) true = some 101
    ∧ mainStartupExitCode (fun _ => none) true ≠ some 2
    ∧ mainStartupExitCode (fun _ => some "x") false = some 101
    ∧ mainStartupExitCode (fun _ => some "x") false ≠ some 3 := by
  decide

/-- C7 (amended): a missing required environment variable terminates the
binary via panic with exit status 101 (only db.rs's helper, which main()
never reaches, would exit with code 2), a database connect failure
likewise terminates with 101 rather than 3, and 101 is the only exit
status main()'s startup ever produces. -/
theorem startup_exit_behaviour (env : String → Option String) (key : String)
    (reachable : Bool) :
    (env key = none → fetch_env_var_exiting env key = Except.error 2)
    ∧ ((env "POSTGRES_PASSWORD" = none ∨ env "POSTGRES_DB" = none) →
        mainStartupExitCode env reachable = some panicExitCode)
    ∧ (reachable = false →
        mainStartupExitCode env reachable = some panicExitCode)
    ∧ (∀ c, mainStartupExitCode env reachable = some c →
        c = panicExitCode) := by
  refine ⟨?_, ?_, ?_, ?_⟩
  · intro h
    simp [fetch_env_var_exiting, h]
  · rintro (h | h)
    · simp [mainStartupExitCode, construct_db_connection_string, h]
    · cases hp : env "POSTGRES_PASSWORD" <;>
        simp [mainStartupExitCode, construct_db_connection_string, hp, h]
  · intro h
    subst h
    cases hp : env "POSTGRES_PASSWORD" <;>
      cases hd : env "POSTGRES_DB" <;>
        simp [mainStartupExitCode, construct_db_connection_string, hp, hd]
  · intro c hc
    cases hp : env "POSTGRES_PASSWORD" <;>
      cases hd : env "POSTGRES_DB" <;>
        cases reachable <;>
          simp_all [mainStartupExitCode, construct_db_connection_string]

/-- C7 witness: the amended behaviour evaluated concretely — a missing
POSTGRES_PASSWORD makes db.rs's helper exit 2 while main() terminates
with the panic status, and an unreachable database also terminates with
the panic status. -/
theorem startup_exit_behaviour_witness :
    fetch_env_var_exiting (fun _ => none) "POSTGRES_PASSWORD"
      = Except.error 2
    ∧ mainStartupExitCode (fun _ => none) true = some panicExitCode
    ∧ mainStartupExitCode (fun _ => some "x") false = some panicExitCode :=
  ⟨(startup_exit_behaviour (fun _ => none) "POSTGRES_PASSWORD" true).1 rfl,
   (startup_exit_behaviour (fun _ => none) "POSTGRES_PASSWORD" true).2.1
     (Or.inl rfl),
   (startup_exit_behaviour (fun _ => some "x") "POSTGRES_PASSWORD" false).2.2.1
     rfl⟩
